import Mathlib

/-!
Shallow embedding of the Premier League season-prediction pipeline
(`PL_2025-26_prediction.py`): the match parser, the season summariser and
the cross-season dataset builder, together with theorems about them.

Machine integers of the source are modelled as `Int` (pandas integer
columns), team names as `String`, feature vectors of the dataset builder
as `ℚ` (elementwise means are exact rationals).  Failures that the source
raises as Python exceptions (`ValueError` from `astype(int)`, called
`MalformedScoreError` by the specification) are modelled as `none` /
`Except.error`.
-/

/-- One raw CSV record as consumed by `parse_match_results`: the `Team 1`,
`Team 2` and `FT` columns (the date and half-time columns are ignored by
the code). -/
structure RawRecord where
  team1 : String
  team2 : String
  ft : String
deriving Repr, DecidableEq

/-- A parsed match: `Team 1`, `Team 2` plus the `home_goals` and
`away_goals` integer columns added by `parse_match_results`. -/
structure MatchResult where
  home_team : String
  away_team : String
  home_goals : Int
  away_goals : Int
deriving Repr, DecidableEq

/-- Model of pandas `Series.str.split("-")` on one cell: split a character
list at every `-`, keeping empty pieces, never returning an empty list
(splitting the empty string yields `[[]]`, as in Python). -/
def splitDash : List Char → List (List Char)
  | [] => [[]]
  | c :: rest =>
    if c = '-' then [] :: splitDash rest
    else
      match splitDash rest with
      | p :: ps => (c :: p) :: ps
      | [] => [[c]]

/-- Model of Python `int(str)` as used by `astype(int)`: a nonempty digit
string, optionally preceded by a minus sign, parsed in base ten; anything
else fails. -/
def parseNatChars (cs : List Char) : Option Nat :=
  match cs with
  | [] => none
  | _ =>
    if cs.all Char.isDigit then
      some (cs.foldl (fun n c => n * 10 + (c.toNat - 48)) 0)
    else none

/-- Signed variant of `parseNatChars`, modelling `int()` on a cell. -/
def parseIntChars : List Char → Option Int
  | '-' :: rest => (parseNatChars rest).map (fun n => -(n : Int))
  | cs => (parseNatChars cs).map (fun n => (n : Int))

/-- Model of the score handling of `parse_match_results` on one record:
`goals = df["FT"].str.split("-", expand=True)` followed by
`goals[0].astype(int)` and `goals[1].astype(int)`.  Columns beyond index 1
are never read, so extra split pieces are discarded; the parse fails
(`none`, the spec's `MalformedScoreError`) when fewer than two pieces
exist or either of the first two pieces is not an integer. -/
def parseScore (ft : String) : Option (Int × Int) :=
  match splitDash ft.data with
  | p0 :: p1 :: _ =>
    match parseIntChars p0, parseIntChars p1 with
    | some h, some a => some (h, a)
    | _, _ => none
  | _ => none

/-- Model of `parse_match_results` on a whole season file: every record's
`FT` cell is parsed; a single failure aborts the whole DataFrame
operation with no partial result, as a raised `ValueError` does. -/
def parse_match_results : List RawRecord → Option (List MatchResult)
  | [] => some []
  | r :: rest =>
    match parseScore r.ft, parse_match_results rest with
    | some g, some ms => some (⟨r.team1, r.team2, g.1, g.2⟩ :: ms)
    | _, _ => none

/-- The per-team accumulator of `summarise_season`: the value type of the
`defaultdict` keyed by team name. -/
structure TeamSeasonStats where
  points : Int
  wins : Int
  draws : Int
  losses : Int
  goals_for : Int
  goals_against : Int
deriving Repr, DecidableEq

/-- The zero statistics a `defaultdict` entry starts from. -/
def zeroStats : TeamSeasonStats := ⟨0, 0, 0, 0, 0, 0⟩

/-- The accumulator mapping of `summarise_season`, as an association list
in insertion order (Python dicts preserve insertion order). -/
abbrev AccMap := List (String × TeamSeasonStats)

/-- Read a team's statistics, defaulting to zeros: `teams[t]` on a
`defaultdict` never fails. -/
def getTeam : AccMap → String → TeamSeasonStats
  | [], _ => zeroStats
  | (u, s) :: rest, t => if u = t then s else getTeam rest t

/-- Write a team's statistics: replace the existing entry in place, or
append a fresh entry at the end (insertion order of a Python dict). -/
def setTeam : AccMap → String → TeamSeasonStats → AccMap
  | [], t, v => [(t, v)]
  | (u, s) :: rest, t, v =>
    if u = t then (u, v) :: rest else (u, s) :: setTeam rest t v

/-- One `teams[t][field] += delta` style update. -/
def updTeam (acc : AccMap) (t : String) (f : TeamSeasonStats → TeamSeasonStats) : AccMap :=
  setTeam acc t (f (getTeam acc t))

/-- The body of the per-match loop of `summarise_season`: goals are
credited to both sides, then exactly one of the home-win / away-win /
draw branches fires. -/
def stepMatch (acc : AccMap) (m : MatchResult) : AccMap :=
  let a1 := updTeam acc m.home_team (fun s =>
    { s with goals_for := s.goals_for + m.home_goals,
             goals_against := s.goals_against + m.away_goals })
  let a2 := updTeam a1 m.away_team (fun s =>
    { s with goals_for := s.goals_for + m.away_goals,
             goals_against := s.goals_against + m.home_goals })
  if m.home_goals > m.away_goals then
    let a3 := updTeam a2 m.home_team (fun s =>
      { s with points := s.points + 3, wins := s.wins + 1 })
    updTeam a3 m.away_team (fun s => { s with losses := s.losses + 1 })
  else if m.home_goals < m.away_goals then
    let a3 := updTeam a2 m.away_team (fun s =>
      { s with points := s.points + 3, wins := s.wins + 1 })
    updTeam a3 m.home_team (fun s => { s with losses := s.losses + 1 })
  else
    let a3 := updTeam a2 m.home_team (fun s =>
      { s with points := s.points + 1, draws := s.draws + 1 })
    updTeam a3 m.away_team (fun s => { s with points := s.points + 1, draws := s.draws + 1 })

/-- Fold a whole season's matches through the accumulator, in input
order, starting from the empty mapping. -/
def foldMatches (ms : List MatchResult) : AccMap := ms.foldl stepMatch []

/-- One row of the summary DataFrame before ranking: team name, the six
accumulated statistics and the derived `goal_diff`. -/
structure SummaryRow where
  team : String
  points : Int
  wins : Int
  draws : Int
  losses : Int
  goals_for : Int
  goals_against : Int
  goal_diff : Int
deriving Repr, DecidableEq

/-- Build the unranked summary rows from the accumulator, in dict
iteration order, computing `goal_diff = goals_for - goals_against`. -/
def buildRows (acc : AccMap) : List SummaryRow :=
  acc.map (fun p =>
    { team := p.1, points := p.2.points, wins := p.2.wins, draws := p.2.draws,
      losses := p.2.losses, goals_for := p.2.goals_for,
      goals_against := p.2.goals_against,
      goal_diff := p.2.goals_for - p.2.goals_against })

/-- Strict comparison under the composite sort key of
`sort_values(["points", "goal_diff", "goals_for"], ascending=False)`:
`keyLt a b` holds when `a` ranks strictly below `b`. -/
def keyLt (a b : SummaryRow) : Prop :=
  a.points < b.points ∨
    (a.points = b.points ∧
      (a.goal_diff < b.goal_diff ∨
        (a.goal_diff = b.goal_diff ∧ a.goals_for < b.goals_for)))

instance decKeyLt (a b : SummaryRow) : Decidable (keyLt a b) := by
  unfold keyLt; infer_instance

/-- Stable insertion for the descending composite-key sort: a row goes in
front of the first strictly weaker row, so rows tied on all three keys
keep their original relative order — the stability of the `lexsort` that
pandas uses for a multi-column `sort_values`. -/
def insertRow : List SummaryRow → SummaryRow → List SummaryRow
  | [], x => [x]
  | y :: ys, x => if keyLt y x then x :: y :: ys else y :: insertRow ys x

/-- The stable descending sort of the summary rows. -/
def sortRows (l : List SummaryRow) : List SummaryRow := l.foldl insertRow []

/-- A summary row together with its final `position` column. -/
structure RankedRow where
  row : SummaryRow
  position : Nat
deriving Repr, DecidableEq

/-- Model of `summary["position"] = summary.index + 1` after
`reset_index`: positions count up from `n` along the sorted rows. -/
def assignPositions : Nat → List SummaryRow → List RankedRow
  | _, [] => []
  | n, r :: rest => ⟨r, n⟩ :: assignPositions (n + 1) rest

/-- Model of `summarise_season`: fold the matches through the
accumulator, build the rows, sort by the composite key and assign
1-based positions. -/
def summarise_season (ms : List MatchResult) : List RankedRow :=
  assignPositions 1 (sortRows (buildRows (foldMatches ms)))

/-- The season pipeline for one file: parse all records, then summarise;
a parse failure yields no summary at all. -/
def run_season (records : List RawRecord) : Option (List RankedRow) :=
  (parse_match_results records).map summarise_season

/-- All team names appearing in a match list, home before away, in match
order (with repetitions). -/
def teamList (ms : List MatchResult) : List String :=
  ms.foldr (fun m acc => m.home_team :: m.away_team :: acc) []

/-- A feature vector of the dataset builder: the seven numeric columns of
a summary row, as rationals so that the bottom-three mean is exact. -/
structure FeatureVec where
  points : ℚ
  wins : ℚ
  draws : ℚ
  losses : ℚ
  goals_for : ℚ
  goals_against : ℚ
  goal_diff : ℚ
deriving Repr, DecidableEq

/-- The feature vector of a ranked summary row, verbatim. -/
def featuresOfRanked (r : RankedRow) : FeatureVec :=
  { points := r.row.points, wins := r.row.wins, draws := r.row.draws,
    losses := r.row.losses, goals_for := r.row.goals_for,
    goals_against := r.row.goals_against, goal_diff := r.row.goal_diff }

/-- Elementwise sum of feature vectors. -/
def sumFeatures (l : List FeatureVec) : FeatureVec :=
  l.foldr
    (fun a b =>
      { points := a.points + b.points, wins := a.wins + b.wins,
        draws := a.draws + b.draws, losses := a.losses + b.losses,
        goals_for := a.goals_for + b.goals_for,
        goals_against := a.goals_against + b.goals_against,
        goal_diff := a.goal_diff + b.goal_diff })
    ⟨0, 0, 0, 0, 0, 0, 0⟩

/-- Elementwise arithmetic mean of a list of feature vectors. -/
def meanFeatures (l : List FeatureVec) : FeatureVec :=
  let s := sumFeatures l
  let n : ℚ := l.length
  { points := s.points / n, wins := s.wins / n, draws := s.draws / n,
    losses := s.losses / n, goals_for := s.goals_for / n,
    goals_against := s.goals_against / n, goal_diff := s.goal_diff / n }

/-- The three lowest-positioned rows of a season summary: a summary lists
its rows in position order 1..N, so these are its last three rows. -/
def bottomThree (s : List RankedRow) : List RankedRow :=
  s.drop (s.length - 3)

/-- Modelled from the spec: the DefaultFeatureProfile of §4.3 — the
elementwise mean of the feature vectors of the three lowest-positioned
teams of the earlier season (the body of `prepare_training_data` that
computes it lies beyond the end of the source snapshot, which stops at
line 224 inside that function). -/
def defaultFeatureProfile (prev : List RankedRow) : FeatureVec :=
  meanFeatures ((bottomThree prev).map featuresOfRanked)

/-- Look a team up in a season summary by exact name equality. -/
def lookupTeam (s : List RankedRow) (t : String) : Option RankedRow :=
  s.find? (fun r => r.row.team == t)

/-- One training example: a team, its prior-season feature vector (real
or imputed) and its label, the position in the later season. -/
structure TrainingRow where
  team : String
  features : FeatureVec
  label : Nat
deriving Repr, DecidableEq

/-- Modelled from the spec: the body of the consecutive-pair loop of
`prepare_training_data` (§4.3; the source snapshot ends at line 224,
inside the loop).  For every team of the later season, in row order: its
feature vector from the earlier season when present, the
DefaultFeatureProfile when absent, labelled with its position in the
later season. -/
def pairRows (prev curr : List RankedRow) : List TrainingRow :=
  curr.map (fun r =>
    { team := r.row.team,
      features :=
        match lookupTeam prev r.row.team with
        | some p => featuresOfRanked p
        | none => defaultFeatureProfile prev,
      label := r.position })

/-- Consecutive pairs of an ordered list: `(s₀,s₁), (s₁,s₂), …`. -/
def consecPairs (l : List (List RankedRow)) : List (List RankedRow × List RankedRow) :=
  l.zip l.tail

/-- Modelled from the spec: `prepare_training_data` over already-computed
season summaries (its tail beyond source line 224 is missing from the
snapshot).  Fewer than two seasons is the fatal `InsufficientSeasonsError`
of §7; otherwise the training rows of all consecutive pairs are
concatenated oldest-first. -/
def prepare_training_data (seasons : List (List RankedRow)) :
    Except String (List TrainingRow) :=
  if seasons.length < 2 then Except.error "InsufficientSeasonsError"
  else Except.ok ((consecPairs seasons).foldr (fun pc acc => pairRows pc.1 pc.2 ++ acc) [])

theorem getTeam_setTeam_same (acc : AccMap) (t : String) (v : TeamSeasonStats) :
    getTeam (setTeam acc t v) t = v := by
  induction acc with
  | nil => simp [setTeam, getTeam]
  | cons p rest ih =>
    obtain ⟨u, s⟩ := p
    by_cases h : u = t
    · simp [setTeam, getTeam, h]
    · simp [setTeam, getTeam, h, ih]

theorem getTeam_setTeam_other (acc : AccMap) (t : String) (v : TeamSeasonStats)
    (u : String) (h : u ≠ t) : getTeam (setTeam acc t v) u = getTeam acc u := by
  have htu : ¬ t = u := fun hh => h hh.symm
  induction acc with
  | nil => simp [setTeam, getTeam, htu]
  | cons p rest ih =>
    obtain ⟨w, s⟩ := p
    by_cases hw : w = t
    · subst hw
      simp [setTeam, getTeam, htu]
    · simp only [setTeam, if_neg hw]
      by_cases hu : w = u
      · simp [getTeam, hu]
      · simp [getTeam, hu, ih]

theorem getTeam_updTeam_same (acc : AccMap) (t : String)
    (f : TeamSeasonStats → TeamSeasonStats) :
    getTeam (updTeam acc t f) t = f (getTeam acc t) := by
  simp [updTeam, getTeam_setTeam_same]

theorem getTeam_updTeam_other (acc : AccMap) (t : String)
    (f : TeamSeasonStats → TeamSeasonStats) (u : String) (h : u ≠ t) :
    getTeam (updTeam acc t f) u = getTeam acc u := by
  simp [updTeam, getTeam_setTeam_other _ _ _ _ h]

theorem stepMatch_other (acc : AccMap) (m : MatchResult) (t : String)
    (h1 : t ≠ m.home_team) (h2 : t ≠ m.away_team) :
    getTeam (stepMatch acc m) t = getTeam acc t := by
  simp only [stepMatch]
  split_ifs with hb1 hb2 <;>
    simp [getTeam_updTeam_other, h1, h2]

theorem stepMatch_home_of_homewin (acc : AccMap) (m : MatchResult)
    (hne : m.home_team ≠ m.away_team) (hw : m.home_goals > m.away_goals) :
    getTeam (stepMatch acc m) m.home_team =
      { points := (getTeam acc m.home_team).points + 3,
        wins := (getTeam acc m.home_team).wins + 1,
        draws := (getTeam acc m.home_team).draws,
        losses := (getTeam acc m.home_team).losses,
        goals_for := (getTeam acc m.home_team).goals_for + m.home_goals,
        goals_against := (getTeam acc m.home_team).goals_against + m.away_goals } := by
  simp only [stepMatch]
  split_ifs
  simp [getTeam_updTeam_same, getTeam_updTeam_other, hne, Ne.symm hne]

theorem stepMatch_away_of_homewin (acc : AccMap) (m : MatchResult)
    (hne : m.home_team ≠ m.away_team) (hw : m.home_goals > m.away_goals) :
    getTeam (stepMatch acc m) m.away_team =
      { points := (getTeam acc m.away_team).points,
        wins := (getTeam acc m.away_team).wins,
        draws := (getTeam acc m.away_team).draws,
        losses := (getTeam acc m.away_team).losses + 1,
        goals_for := (getTeam acc m.away_team).goals_for + m.away_goals,
        goals_against := (getTeam acc m.away_team).goals_against + m.home_goals } := by
  simp only [stepMatch]
  split_ifs
  simp [getTeam_updTeam_same, getTeam_updTeam_other, hne, Ne.symm hne]

theorem stepMatch_away_of_awaywin (acc : AccMap) (m : MatchResult)
    (hne : m.home_team ≠ m.away_team) (hw : m.home_goals < m.away_goals) :
    getTeam (stepMatch acc m) m.away_team =
      { points := (getTeam acc m.away_team).points + 3,
        wins := (getTeam acc m.away_team).wins + 1,
        draws := (getTeam acc m.away_team).draws,
        losses := (getTeam acc m.away_team).losses,
        goals_for := (getTeam acc m.away_team).goals_for + m.away_goals,
        goals_against := (getTeam acc m.away_team).goals_against + m.home_goals } := by
  simp only [stepMatch]
  split_ifs with hb1
  · omega
  · simp [getTeam_updTeam_same, getTeam_updTeam_other, hne, Ne.symm hne]

theorem stepMatch_home_of_awaywin (acc : AccMap) (m : MatchResult)
    (hne : m.home_team ≠ m.away_team) (hw : m.home_goals < m.away_goals) :
    getTeam (stepMatch acc m) m.home_team =
      { points := (getTeam acc m.home_team).points,
        wins := (getTeam acc m.home_team).wins,
        draws := (getTeam acc m.home_team).draws,
        losses := (getTeam acc m.home_team).losses + 1,
        goals_for := (getTeam acc m.home_team).goals_for + m.home_goals,
        goals_against := (getTeam acc m.home_team).goals_against + m.away_goals } := by
  simp only [stepMatch]
  split_ifs with hb1
  · omega
  · simp [getTeam_updTeam_same, getTeam_updTeam_other, hne, Ne.symm hne]

theorem stepMatch_home_of_draw (acc : AccMap) (m : MatchResult)
    (hne : m.home_team ≠ m.away_team) (hd : m.home_goals = m.away_goals) :
    getTeam (stepMatch acc m) m.home_team =
      { points := (getTeam acc m.home_team).points + 1,
        wins := (getTeam acc m.home_team).wins,
        draws := (getTeam acc m.home_team).draws + 1,
        losses := (getTeam acc m.home_team).losses,
        goals_for := (getTeam acc m.home_team).goals_for + m.home_goals,
        goals_against := (getTeam acc m.home_team).goals_against + m.away_goals } := by
  simp only [stepMatch]
  split_ifs with hb1 hb2
  · omega
  · omega
  · simp [getTeam_updTeam_same, getTeam_updTeam_other, hne, Ne.symm hne]

theorem stepMatch_away_of_draw (acc : AccMap) (m : MatchResult)
    (hne : m.home_team ≠ m.away_team) (hd : m.home_goals = m.away_goals) :
    getTeam (stepMatch acc m) m.away_team =
      { points := (getTeam acc m.away_team).points + 1,
        wins := (getTeam acc m.away_team).wins,
        draws := (getTeam acc m.away_team).draws + 1,
        losses := (getTeam acc m.away_team).losses,
        goals_for := (getTeam acc m.away_team).goals_for + m.away_goals,
        goals_against := (getTeam acc m.away_team).goals_against + m.home_goals } := by
  simp only [stepMatch]
  split_ifs with hb1 hb2
  · omega
  · omega
  · simp [getTeam_updTeam_same, getTeam_updTeam_other, hne, Ne.symm hne]

/-- C1: every match folded by the season summariser updates exactly the
two participating teams, under exactly one of three mutually exclusive and
exhaustive branches: a home win gives the home side +3 points and +1 win
and the away side +1 loss, an away win mirrors this, and a draw gives both
sides +1 point and +1 draw; in all branches the home goals are added to
the home side's goals_for and the away side's goals_against, and the away
goals symmetrically. -/
theorem summariser_match_update_cases (acc : AccMap) (m : MatchResult)
    (hne : m.home_team ≠ m.away_team) :
    (∀ t, t ≠ m.home_team → t ≠ m.away_team →
        getTeam (stepMatch acc m) t = getTeam acc t) ∧
    (m.home_goals > m.away_goals ∨ m.home_goals < m.away_goals ∨
        m.home_goals = m.away_goals) ∧
    (m.home_goals > m.away_goals →
      getTeam (stepMatch acc m) m.home_team =
        { points := (getTeam acc m.home_team).points + 3,
          wins := (getTeam acc m.home_team).wins + 1,
          draws := (getTeam acc m.home_team).draws,
          losses := (getTeam acc m.home_team).losses,
          goals_for := (getTeam acc m.home_team).goals_for + m.home_goals,
          goals_against := (getTeam acc m.home_team).goals_against + m.away_goals } ∧
      getTeam (stepMatch acc m) m.away_team =
        { points := (getTeam acc m.away_team).points,
          wins := (getTeam acc m.away_team).wins,
          draws := (getTeam acc m.away_team).draws,
          losses := (getTeam acc m.away_team).losses + 1,
          goals_for := (getTeam acc m.away_team).goals_for + m.away_goals,
          goals_against := (getTeam acc m.away_team).goals_against + m.home_goals }) ∧
    (m.home_goals < m.away_goals →
      getTeam (stepMatch acc m) m.away_team =
        { points := (getTeam acc m.away_team).points + 3,
          wins := (getTeam acc m.away_team).wins + 1,
          draws := (getTeam acc m.away_team).draws,
          losses := (getTeam acc m.away_team).losses,
          goals_for := (getTeam acc m.away_team).goals_for + m.away_goals,
          goals_against := (getTeam acc m.away_team).goals_against + m.home_goals } ∧
      getTeam (stepMatch acc m) m.home_team =
        { points := (getTeam acc m.home_team).points,
          wins := (getTeam acc m.home_team).wins,
          draws := (getTeam acc m.home_team).draws,
          losses := (getTeam acc m.home_team).losses + 1,
          goals_for := (getTeam acc m.home_team).goals_for + m.home_goals,
          goals_against := (getTeam acc m.home_team).goals_against + m.away_goals }) ∧
    (m.home_goals = m.away_goals →
      getTeam (stepMatch acc m) m.home_team =
        { points := (getTeam acc m.home_team).points + 1,
          wins := (getTeam acc m.home_team).wins,
          draws := (getTeam acc m.home_team).draws + 1,
          losses := (getTeam acc m.home_team).losses,
          goals_for := (getTeam acc m.home_team).goals_for + m.home_goals,
          goals_against := (getTeam acc m.home_team).goals_against + m.away_goals } ∧
      getTeam (stepMatch acc m) m.away_team =
        { points := (getTeam acc m.away_team).points + 1,
          wins := (getTeam acc m.away_team).wins,
          draws := (getTeam acc m.away_team).draws + 1,
          losses := (getTeam acc m.away_team).losses,
          goals_for := (getTeam acc m.away_team).goals_for + m.away_goals,
          goals_against := (getTeam acc m.away_team).goals_against + m.home_goals }) := by
  refine ⟨fun t h1 h2 => stepMatch_other acc m t h1 h2, by omega, fun hw => ?_, fun hw => ?_, fun hd => ?_⟩
  · exact ⟨stepMatch_home_of_homewin acc m hne hw, stepMatch_away_of_homewin acc m hne hw⟩
  · exact ⟨stepMatch_away_of_awaywin acc m hne hw, stepMatch_home_of_awaywin acc m hne hw⟩
  · exact ⟨stepMatch_home_of_draw acc m hne hd, stepMatch_away_of_draw acc m hne hd⟩

/-- Witness for C1 at the concrete match A 2-0 B: a third team's entry is
untouched by the fold step. -/
theorem summariser_match_update_cases_witness :
    getTeam (stepMatch [] ⟨"A", "B", 2, 0⟩) "C" = getTeam [] "C" :=
  (summariser_match_update_cases [] ⟨"A", "B", 2, 0⟩ (by decide)).1 "C" (by decide) (by decide)

/-- The number of matches a team has taken part in, as home or away side. -/
def playedCount (t : String) (ms : List MatchResult) : Nat :=
  (ms.filter (fun mm => mm.home_team == t || mm.away_team == t)).length

theorem playedCount_append_one (t : String) (l : List MatchResult) (m : MatchResult) :
    playedCount t (l ++ [m]) =
      playedCount t l + (if m.home_team = t ∨ m.away_team = t then 1 else 0) := by
  by_cases h1 : m.home_team = t <;> by_cases h2 : m.away_team = t
  · have b1 : (m.home_team == t) = true := by simpa using h1
    simp [playedCount, List.filter_append, List.filter, h1, h2, b1]
  · have b1 : (m.home_team == t) = true := by simpa using h1
    simp [playedCount, List.filter_append, List.filter, h1, h2, b1]
  · have b1 : (m.home_team == t) = false := by simpa using h1
    have b2 : (m.away_team == t) = true := by simpa using h2
    simp [playedCount, List.filter_append, List.filter, h1, h2, b1, b2]
  · have b1 : (m.home_team == t) = false := by simpa using h1
    have b2 : (m.away_team == t) = false := by simpa using h2
    simp [playedCount, List.filter_append, List.filter, h1, h2, b1, b2]

theorem foldMatches_append_one (l : List MatchResult) (m : MatchResult) :
    foldMatches (l ++ [m]) = stepMatch (foldMatches l) m := by
  simp [foldMatches, List.foldl_append]

theorem foldMatches_invariant :
    ∀ (ms : List MatchResult), (∀ m ∈ ms, m.home_team ≠ m.away_team) →
      ∀ t : String,
        (getTeam (foldMatches ms) t).wins + (getTeam (foldMatches ms) t).draws +
            (getTeam (foldMatches ms) t).losses = (playedCount t ms : Int) ∧
        (getTeam (foldMatches ms) t).points =
          3 * (getTeam (foldMatches ms) t).wins + (getTeam (foldMatches ms) t).draws := by
  intro ms
  induction ms using List.reverseRecOn with
  | nil => intro _ t; simp [foldMatches, getTeam, playedCount, zeroStats]
  | append_singleton l m ih =>
    intro hne t
    have hl : ∀ m' ∈ l, m'.home_team ≠ m'.away_team := fun m' hm' => hne m' (by simp [hm'])
    have hm : m.home_team ≠ m.away_team := hne m (by simp)
    obtain ⟨ih1, ih2⟩ := ih hl t
    rw [foldMatches_append_one, playedCount_append_one]
    by_cases ht1 : t = m.home_team
    · subst ht1
      rw [if_pos (Or.inl rfl)]
      rcases lt_trichotomy m.home_goals m.away_goals with hw | hd | hw
      · rw [stepMatch_home_of_awaywin _ _ hm hw]
        dsimp only
        push_cast
        omega
      · rw [stepMatch_home_of_draw _ _ hm hd]
        dsimp only
        push_cast
        omega
      · rw [stepMatch_home_of_homewin _ _ hm hw]
        dsimp only
        push_cast
        omega
    · by_cases ht2 : t = m.away_team
      · subst ht2
        rw [if_pos (Or.inr rfl)]
        rcases lt_trichotomy m.home_goals m.away_goals with hw | hd | hw
        · rw [stepMatch_away_of_awaywin _ _ hm hw]
          dsimp only
          push_cast
          omega
        · rw [stepMatch_away_of_draw _ _ hm hd]
          dsimp only
          push_cast
          omega
        · rw [stepMatch_away_of_homewin _ _ hm hw]
          dsimp only
          push_cast
          omega
      · have hcond : ¬(m.home_team = t ∨ m.away_team = t) := by
          rintro (h | h)
          · exact ht1 h.symm
          · exact ht2 h.symm
        rw [stepMatch_other _ _ _ ht1 ht2, if_neg hcond]
        simpa using ⟨ih1, ih2⟩

/-- C7: after each intermediate step of the fold — i.e. on every prefix of
the match list — each team's accumulated statistics satisfy
`wins + draws + losses = number of matches that team has played so far`
and `points = 3 * wins + draws`, provided every match has distinct home
and away sides. -/
theorem summariser_intermediate_invariant (ms : List MatchResult)
    (hne : ∀ m ∈ ms, m.home_team ≠ m.away_team) (n : Nat) (t : String) :
    (getTeam (foldMatches (ms.take n)) t).wins +
        (getTeam (foldMatches (ms.take n)) t).draws +
        (getTeam (foldMatches (ms.take n)) t).losses =
      (playedCount t (ms.take n) : Int) ∧
    (getTeam (foldMatches (ms.take n)) t).points =
      3 * (getTeam (foldMatches (ms.take n)) t).wins +
        (getTeam (foldMatches (ms.take n)) t).draws :=
  foldMatches_invariant (ms.take n) (fun m hm => hne m (List.take_subset n ms hm)) t

/-- Witness for C7: after the first two of three matches, team A has
played twice with one win and one draw, five points… the invariant holds
at this concrete intermediate state. -/
theorem summariser_intermediate_invariant_witness :
    (getTeam (foldMatches (([⟨"A", "B", 2, 0⟩, ⟨"B", "A", 1, 1⟩, ⟨"A", "B", 0, 3⟩] :
          List MatchResult).take 2)) "A").wins +
        (getTeam (foldMatches (([⟨"A", "B", 2, 0⟩, ⟨"B", "A", 1, 1⟩, ⟨"A", "B", 0, 3⟩] :
          List MatchResult).take 2)) "A").draws +
        (getTeam (foldMatches (([⟨"A", "B", 2, 0⟩, ⟨"B", "A", 1, 1⟩, ⟨"A", "B", 0, 3⟩] :
          List MatchResult).take 2)) "A").losses =
      (playedCount "A" (([⟨"A", "B", 2, 0⟩, ⟨"B", "A", 1, 1⟩, ⟨"A", "B", 0, 3⟩] :
          List MatchResult).take 2) : Int) ∧
    (getTeam (foldMatches (([⟨"A", "B", 2, 0⟩, ⟨"B", "A", 1, 1⟩, ⟨"A", "B", 0, 3⟩] :
          List MatchResult).take 2)) "A").points =
      3 * (getTeam (foldMatches (([⟨"A", "B", 2, 0⟩, ⟨"B", "A", 1, 1⟩, ⟨"A", "B", 0, 3⟩] :
          List MatchResult).take 2)) "A").wins +
        (getTeam (foldMatches (([⟨"A", "B", 2, 0⟩, ⟨"B", "A", 1, 1⟩, ⟨"A", "B", 0, 3⟩] :
          List MatchResult).take 2)) "A").draws :=
  summariser_intermediate_invariant
    [⟨"A", "B", 2, 0⟩, ⟨"B", "A", 1, 1⟩, ⟨"A", "B", 0, 3⟩] (by decide) 2 "A"

theorem keyLt_irrefl (a : SummaryRow) : ¬ keyLt a a := by
  unfold keyLt; omega

theorem keyLt_asymm (a b : SummaryRow) : keyLt a b → ¬ keyLt b a := by
  unfold keyLt; omega

theorem keyLt_trans (a b c : SummaryRow) : keyLt a b → keyLt b c → keyLt a c := by
  unfold keyLt; omega

theorem insertRow_perm (l : List SummaryRow) (x : SummaryRow) :
    List.Perm (insertRow l x) (x :: l) := by
  induction l with
  | nil => exact List.Perm.refl _
  | cons y ys ih =>
    by_cases h : keyLt y x
    · simp [insertRow, h]
    · simp only [insertRow, if_neg h]
      exact (ih.cons y).trans (List.Perm.swap x y ys)

theorem insertRow_mem (l : List SummaryRow) (x z : SummaryRow) :
    z ∈ insertRow l x ↔ z = x ∨ z ∈ l := by
  rw [(insertRow_perm l x).mem_iff, List.mem_cons]

theorem insertRow_pairwise (l : List SummaryRow) (x : SummaryRow)
    (h : l.Pairwise (fun a b => ¬ keyLt a b)) :
    (insertRow l x).Pairwise (fun a b => ¬ keyLt a b) := by
  induction l with
  | nil => simp [insertRow]
  | cons y ys ih =>
    rcases List.pairwise_cons.mp h with ⟨hy, hys⟩
    by_cases hx : keyLt y x
    · simp only [insertRow, if_pos hx]
      refine List.Pairwise.cons ?_ h
      intro z hz
      rcases List.mem_cons.mp hz with hz | hz
      · rw [hz]; exact keyLt_asymm y x hx
      · intro hxz
        exact hy z hz (keyLt_trans y x z hx hxz)
    · simp only [insertRow, if_neg hx]
      refine List.Pairwise.cons ?_ (ih hys)
      intro z hz
      rcases (insertRow_mem ys x z).mp hz with hz | hz
      · rw [hz]; exact hx
      · exact hy z hz

theorem foldl_insertRow_perm :
    ∀ (l acc : List SummaryRow), List.Perm (List.foldl insertRow acc l) (acc ++ l) := by
  intro l
  induction l with
  | nil => intro acc; simp
  | cons x xs ih =>
    intro acc
    have h1 : List.foldl insertRow acc (x :: xs) = List.foldl insertRow (insertRow acc x) xs := rfl
    rw [h1]
    refine ((ih (insertRow acc x)).trans ?_)
    refine (((insertRow_perm acc x).append_right xs).trans ?_)
    exact List.perm_middle.symm

theorem foldl_insertRow_pairwise :
    ∀ (l acc : List SummaryRow), acc.Pairwise (fun a b => ¬ keyLt a b) →
      (List.foldl insertRow acc l).Pairwise (fun a b => ¬ keyLt a b) := by
  intro l
  induction l with
  | nil => intro acc h; exact h
  | cons x xs ih => intro acc h; exact ih (insertRow acc x) (insertRow_pairwise acc x h)

theorem sortRows_perm (l : List SummaryRow) : List.Perm (sortRows l) l := by
  simpa using foldl_insertRow_perm l []

theorem sortRows_pairwise (l : List SummaryRow) :
    (sortRows l).Pairwise (fun a b => ¬ keyLt a b) :=
  foldl_insertRow_pairwise l [] (List.Pairwise.nil)

theorem assignPositions_length (n : Nat) (l : List SummaryRow) :
    (assignPositions n l).length = l.length := by
  induction l generalizing n with
  | nil => rfl
  | cons r rest ih => simp [assignPositions, ih]

theorem assignPositions_get :
    ∀ (l : List SummaryRow) (n i : Nat) (h1 : i < (assignPositions n l).length)
      (h2 : i < l.length),
      (assignPositions n l).get ⟨i, h1⟩ = ⟨l.get ⟨i, h2⟩, n + i⟩ := by
  intro l
  induction l with
  | nil => intro n i h1 h2; exact absurd h2 (by simp)
  | cons r rest ih =>
    intro n i h1 h2
    match i with
    | 0 => simp [assignPositions]
    | k + 1 =>
      have h2x : k < rest.length := by simpa using h2
      have h1x : k < (assignPositions (n + 1) rest).length := by
        rw [assignPositions_length]; exact h2x
      simp only [assignPositions, List.get_cons_succ]
      rw [ih (n + 1) k h1x h2x]
      congr 1
      omega

theorem assignPositions_map_position (n : Nat) (l : List SummaryRow) :
    (assignPositions n l).map (fun r => r.position) = List.range' n l.length := by
  induction l generalizing n with
  | nil => rfl
  | cons r rest ih =>
    simp only [assignPositions, List.map_cons, ih, List.length_cons]
    rw [List.range'_succ n rest.length 1]

theorem assignPositions_map_row (n : Nat) (l : List SummaryRow) :
    (assignPositions n l).map (fun r => r.row) = l := by
  induction l generalizing n with
  | nil => rfl
  | cons r rest ih => simp [assignPositions, ih]

theorem assignPositions_sorted_general (l : List SummaryRow)
    (hp : l.Pairwise (fun a b => ¬ keyLt a b))
    (i j : Fin (assignPositions 1 l).length)
    (hkey : keyLt ((assignPositions 1 l).get j).row ((assignPositions 1 l).get i).row) :
    ((assignPositions 1 l).get i).position < ((assignPositions 1 l).get j).position := by
  rcases i with ⟨iv, hiv⟩
  rcases j with ⟨jv, hjv⟩
  have hi : iv < l.length := by rw [← assignPositions_length 1 l]; exact hiv
  have hj : jv < l.length := by rw [← assignPositions_length 1 l]; exact hjv
  rw [assignPositions_get l 1 iv hiv hi, assignPositions_get l 1 jv hjv hj] at hkey ⊢
  have hpg := List.pairwise_iff_get.mp hp
  rcases Nat.lt_trichotomy iv jv with h | h | h
  · simpa using h
  · subst h
    exact absurd hkey (keyLt_irrefl _)
  · exact absurd hkey (hpg ⟨jv, hj⟩ ⟨iv, hi⟩ (Fin.mk_lt_mk.mpr h))

/-- C2: the summariser sorts the team rows by the composite key (points
descending, goal_diff descending, goals_for descending) and assigns each
team its 1-based rank as `position`: whenever row `i` strictly precedes
row `j` under the composite key, row `i` carries a strictly smaller
position number. -/
theorem summariser_rank_respects_key (ms : List MatchResult) (_hms : ms ≠ [])
    (i j : Fin (summarise_season ms).length)
    (hkey : keyLt ((summarise_season ms).get j).row ((summarise_season ms).get i).row) :
    ((summarise_season ms).get i).position < ((summarise_season ms).get j).position :=
  assignPositions_sorted_general (sortRows (buildRows (foldMatches ms)))
    (sortRows_pairwise _) i j hkey

/-- Witness for C2 on the one-match season A 2-0 B: team A's row strictly
precedes team B's row on the composite key, and its position 1 is
strictly smaller than B's position 2. -/
theorem summariser_rank_respects_key_witness :
    ((summarise_season [⟨"A", "B", 2, 0⟩]).get ⟨0, by decide⟩).position <
      ((summarise_season [⟨"A", "B", 2, 0⟩]).get ⟨1, by decide⟩).position :=
  summariser_rank_respects_key [⟨"A", "B", 2, 0⟩] (by decide)
    ⟨0, by decide⟩ ⟨1, by decide⟩ (by decide)

/-- The key list of the accumulator, in insertion order. -/
def accKeys (acc : AccMap) : List String := acc.map Prod.fst

theorem teamList_cons (m : MatchResult) (ms : List MatchResult) :
    teamList (m :: ms) = m.home_team :: m.away_team :: teamList ms := rfl

theorem accKeys_setTeam_mem (acc : AccMap) (t : String) (v : TeamSeasonStats) (u : String) :
    u ∈ accKeys (setTeam acc t v) ↔ u ∈ accKeys acc ∨ u = t := by
  induction acc with
  | nil => simp [setTeam, accKeys]
  | cons p rest ih =>
    obtain ⟨w, s⟩ := p
    by_cases h : w = t
    · subst h
      have hset : setTeam ((w, s) :: rest) w v = (w, v) :: rest := by simp [setTeam]
      rw [hset]
      simp only [accKeys, List.map_cons, List.mem_cons]
      tauto
    · simp only [setTeam, if_neg h, accKeys, List.map_cons, List.mem_cons]
      simp only [accKeys] at ih
      rw [ih]
      tauto

theorem accKeys_setTeam_nodup (acc : AccMap) (t : String) (v : TeamSeasonStats)
    (h : (accKeys acc).Nodup) : (accKeys (setTeam acc t v)).Nodup := by
  induction acc with
  | nil => simp [setTeam, accKeys]
  | cons p rest ih =>
    obtain ⟨w, s⟩ := p
    simp only [accKeys, List.map_cons, List.nodup_cons] at h
    obtain ⟨hw, hrest⟩ := h
    by_cases hwt : w = t
    · subst hwt
      have hset : setTeam ((w, s) :: rest) w v = (w, v) :: rest := by simp [setTeam]
      rw [hset]
      simp only [accKeys, List.map_cons, List.nodup_cons]
      exact ⟨hw, hrest⟩
    · simp only [setTeam, if_neg hwt, accKeys, List.map_cons, List.nodup_cons]
      refine ⟨?_, ih hrest⟩
      intro hmem
      rcases (accKeys_setTeam_mem rest t v w).mp hmem with hm | hm
      · exact hw hm
      · exact hwt hm

theorem accKeys_updTeam_mem (acc : AccMap) (t : String)
    (f : TeamSeasonStats → TeamSeasonStats) (u : String) :
    u ∈ accKeys (updTeam acc t f) ↔ u ∈ accKeys acc ∨ u = t :=
  accKeys_setTeam_mem acc t _ u

theorem accKeys_updTeam_nodup (acc : AccMap) (t : String)
    (f : TeamSeasonStats → TeamSeasonStats) (h : (accKeys acc).Nodup) :
    (accKeys (updTeam acc t f)).Nodup :=
  accKeys_setTeam_nodup acc t _ h

theorem accKeys_stepMatch_mem (acc : AccMap) (m : MatchResult) (u : String) :
    u ∈ accKeys (stepMatch acc m) ↔
      u ∈ accKeys acc ∨ u = m.home_team ∨ u = m.away_team := by
  simp only [stepMatch]
  split_ifs <;> simp only [accKeys_updTeam_mem] <;> tauto

theorem accKeys_stepMatch_nodup (acc : AccMap) (m : MatchResult)
    (h : (accKeys acc).Nodup) : (accKeys (stepMatch acc m)).Nodup := by
  simp only [stepMatch]
  split_ifs <;>
    exact accKeys_updTeam_nodup _ _ _
      (accKeys_updTeam_nodup _ _ _ (accKeys_updTeam_nodup _ _ _ (accKeys_updTeam_nodup _ _ _ h)))

theorem accKeys_foldMatches_mem :
    ∀ (ms : List MatchResult) (acc : AccMap) (u : String),
      u ∈ accKeys (List.foldl stepMatch acc ms) ↔ u ∈ accKeys acc ∨ u ∈ teamList ms := by
  intro ms
  induction ms with
  | nil => intro acc u; simp [teamList]
  | cons m rest ih =>
    intro acc u
    have h1 : List.foldl stepMatch acc (m :: rest) =
        List.foldl stepMatch (stepMatch acc m) rest := rfl
    rw [h1, ih, teamList_cons, accKeys_stepMatch_mem]
    simp only [List.mem_cons]
    tauto

theorem accKeys_foldMatches_nodup (ms : List MatchResult) :
    (accKeys (foldMatches ms)).Nodup := by
  have haux : ∀ (ms : List MatchResult) (acc : AccMap), (accKeys acc).Nodup →
      (accKeys (List.foldl stepMatch acc ms)).Nodup := by
    intro ms
    induction ms with
    | nil => intro acc h; exact h
    | cons m rest ih => intro acc h; exact ih _ (accKeys_stepMatch_nodup _ _ h)
  exact haux ms [] (by simp [accKeys])

theorem foldMatches_length_card (ms : List MatchResult) :
    (foldMatches ms).length = (teamList ms).toFinset.card := by
  have hnd := accKeys_foldMatches_nodup ms
  have hset : (accKeys (foldMatches ms)).toFinset = (teamList ms).toFinset := by
    ext u
    simp only [List.mem_toFinset]
    have hiff := accKeys_foldMatches_mem ms [] u
    simpa [accKeys, foldMatches] using hiff
  calc (foldMatches ms).length
      = (accKeys (foldMatches ms)).length := (List.length_map _ _).symm
    _ = (accKeys (foldMatches ms)).toFinset.card := (List.toFinset_card_of_nodup hnd).symm
    _ = (teamList ms).toFinset.card := by rw [hset]

/-- C3: for a non-empty match list, the positions of the season summary
are literally the list `[1, …, N]` in row order, where `N` is the number
of distinct team names appearing in the matches — a permutation of
`{1, …, N}` with no duplicate position, even when teams tie on every sort
key. -/
theorem summariser_positions_range (ms : List MatchResult) (_hms : ms ≠ []) :
    (summarise_season ms).map (fun r => r.position) =
      List.range' 1 ((teamList ms).toFinset.card) := by
  have h1 : (summarise_season ms).map (fun r => r.position) =
      List.range' 1 ((sortRows (buildRows (foldMatches ms))).length) :=
    assignPositions_map_position 1 _
  rw [h1]
  congr 1
  rw [(sortRows_perm _).length_eq]
  rw [buildRows, List.length_map]
  exact foldMatches_length_card ms

/-- Witness for C3 on the one-match season A 2-0 B: two distinct teams,
positions `[1, 2]`. -/
theorem summariser_positions_range_witness :
    (summarise_season [⟨"A", "B", 2, 0⟩]).map (fun r => r.position) =
      List.range' 1 ((teamList [(⟨"A", "B", 2, 0⟩ : MatchResult)]).toFinset.card) :=
  summariser_positions_range [⟨"A", "B", 2, 0⟩] (by decide)

/-- Sum of one statistic over all accumulator entries. -/
def sumStat (g : TeamSeasonStats → Int) (acc : AccMap) : Int :=
  (acc.map (fun p => g p.2)).sum

theorem sumStat_updTeam (g : TeamSeasonStats → Int) (hz : g zeroStats = 0)
    (acc : AccMap) (t : String) (f : TeamSeasonStats → TeamSeasonStats) :
    sumStat g (updTeam acc t f) =
      sumStat g acc + (g (f (getTeam acc t)) - g (getTeam acc t)) := by
  induction acc with
  | nil => simp [updTeam, setTeam, getTeam, sumStat, hz]
  | cons p rest ih =>
    obtain ⟨w, s⟩ := p
    by_cases h : w = t
    · subst h
      have hget : getTeam ((w, s) :: rest) w = s := by simp [getTeam]
      have hset : updTeam ((w, s) :: rest) w f = (w, f s) :: rest := by
        simp [updTeam, setTeam, hget]
      rw [hset, hget]
      simp only [sumStat, List.map_cons, List.sum_cons]
      ring
    · have hget : getTeam ((w, s) :: rest) t = getTeam rest t := by simp [getTeam, h]
      have hset : updTeam ((w, s) :: rest) t f =
          (w, s) :: updTeam rest t f := by
        simp [updTeam, setTeam, h, hget]
      rw [hset, hget]
      simp only [sumStat, List.map_cons, List.sum_cons]
      simp only [sumStat] at ih
      rw [ih]
      ring

theorem sumStat_stepMatch_points (acc : AccMap) (m : MatchResult) :
    sumStat (fun s => s.points) (stepMatch acc m) =
      sumStat (fun s => s.points) acc +
        (if m.home_goals = m.away_goals then 2 else 3) := by
  simp only [stepMatch]
  split_ifs with h1 h2 h3 h4 <;>
    simp only [sumStat_updTeam (fun s => s.points) rfl] <;> omega

theorem sumStat_stepMatch_goals_for (acc : AccMap) (m : MatchResult) :
    sumStat (fun s => s.goals_for) (stepMatch acc m) =
      sumStat (fun s => s.goals_for) acc + m.home_goals + m.away_goals := by
  simp only [stepMatch]
  split_ifs <;>
    simp only [sumStat_updTeam (fun s => s.goals_for) rfl] <;> omega

theorem sumStat_stepMatch_goals_against (acc : AccMap) (m : MatchResult) :
    sumStat (fun s => s.goals_against) (stepMatch acc m) =
      sumStat (fun s => s.goals_against) acc + m.home_goals + m.away_goals := by
  simp only [stepMatch]
  split_ifs <;>
    simp only [sumStat_updTeam (fun s => s.goals_against) rfl] <;> omega

/-- The number of drawn matches in a list. -/
def drawCount (ms : List MatchResult) : Nat :=
  (ms.filter (fun m => m.home_goals == m.away_goals)).length

/-- The number of non-drawn matches in a list. -/
def nonDrawCount (ms : List MatchResult) : Nat :=
  (ms.filter (fun m => !(m.home_goals == m.away_goals))).length

theorem drawCount_append_one (l : List MatchResult) (m : MatchResult) :
    drawCount (l ++ [m]) =
      drawCount l + (if m.home_goals = m.away_goals then 1 else 0) := by
  by_cases h : m.home_goals = m.away_goals
  · have hb : (m.home_goals == m.away_goals) = true := by simpa using h
    simp [drawCount, List.filter_append, List.filter, hb, h]
  · have hb : (m.home_goals == m.away_goals) = false := by simpa using h
    simp [drawCount, List.filter_append, List.filter, hb, h]

theorem nonDrawCount_append_one (l : List MatchResult) (m : MatchResult) :
    nonDrawCount (l ++ [m]) =
      nonDrawCount l + (if m.home_goals = m.away_goals then 0 else 1) := by
  by_cases h : m.home_goals = m.away_goals
  · have hb : (m.home_goals == m.away_goals) = true := by simpa using h
    simp [nonDrawCount, List.filter_append, List.filter, hb, h]
  · have hb : (m.home_goals == m.away_goals) = false := by simpa using h
    simp [nonDrawCount, List.filter_append, List.filter, hb, h]

theorem sumStat_foldMatches_points (ms : List MatchResult) :
    sumStat (fun s => s.points) (foldMatches ms) =
      3 * (nonDrawCount ms : Int) + 2 * (drawCount ms : Int) := by
  induction ms using List.reverseRecOn with
  | nil => simp [foldMatches, sumStat, drawCount, nonDrawCount]
  | append_singleton l m ih =>
    rw [foldMatches_append_one, sumStat_stepMatch_points, ih,
      drawCount_append_one, nonDrawCount_append_one]
    split_ifs with h <;> push_cast <;> ring

theorem sumStat_foldMatches_goals (ms : List MatchResult) :
    sumStat (fun s => s.goals_for) (foldMatches ms) =
      sumStat (fun s => s.goals_against) (foldMatches ms) := by
  induction ms using List.reverseRecOn with
  | nil => simp [foldMatches, sumStat]
  | append_singleton l m ih =>
    rw [foldMatches_append_one, sumStat_stepMatch_goals_for,
      sumStat_stepMatch_goals_against, ih]

theorem summary_stat_sum (ms : List MatchResult) (g : TeamSeasonStats → Int)
    (gr : SummaryRow → Int)
    (hg : ∀ p : String × TeamSeasonStats, gr
      { team := p.1, points := p.2.points, wins := p.2.wins, draws := p.2.draws,
        losses := p.2.losses, goals_for := p.2.goals_for,
        goals_against := p.2.goals_against,
        goal_diff := p.2.goals_for - p.2.goals_against } = g p.2) :
    ((summarise_season ms).map (fun r => gr r.row)).sum = sumStat g (foldMatches ms) := by
  have h0 : (summarise_season ms).map (fun r => r.row) =
      sortRows (buildRows (foldMatches ms)) := assignPositions_map_row 1 _
  have h1 : (summarise_season ms).map (fun r => gr r.row) =
      ((summarise_season ms).map (fun r => r.row)).map gr := by
    rw [List.map_map]; rfl
  rw [h1, h0]
  have h2 : ((sortRows (buildRows (foldMatches ms))).map gr).sum =
      ((buildRows (foldMatches ms)).map gr).sum := ((sortRows_perm _).map gr).sum_eq
  rw [h2, buildRows, List.map_map]
  have h3 : (gr ∘ fun p : String × TeamSeasonStats =>
      ({ team := p.1, points := p.2.points, wins := p.2.wins, draws := p.2.draws,
         losses := p.2.losses, goals_for := p.2.goals_for,
         goals_against := p.2.goals_against,
         goal_diff := p.2.goals_for - p.2.goals_against } : SummaryRow)) =
      (fun p => g p.2) := funext fun p => hg p
  rw [h3]
  rfl

/-- C6: over any season summary, total points equal three times the
number of non-drawn matches plus twice the number of draws, and total
goals_for equals total goals_against. -/
theorem summariser_sum_invariants (ms : List MatchResult) :
    ((summarise_season ms).map (fun r => r.row.points)).sum =
      3 * (nonDrawCount ms : Int) + 2 * (drawCount ms : Int) ∧
    ((summarise_season ms).map (fun r => r.row.goals_for)).sum =
      ((summarise_season ms).map (fun r => r.row.goals_against)).sum := by
  constructor
  · rw [summary_stat_sum ms (fun s => s.points) (fun r => r.points) (fun p => rfl)]
    exact sumStat_foldMatches_points ms
  · rw [summary_stat_sum ms (fun s => s.goals_for) (fun r => r.goals_for) (fun p => rfl),
      summary_stat_sum ms (fun s => s.goals_against) (fun r => r.goals_against) (fun p => rfl)]
    exact sumStat_foldMatches_goals ms

/-- C9: the season summariser is a pure function of the ordered match
list — the accumulator is rebuilt from the empty mapping each run and the
stable sort fixes the order of teams tied on all sort keys — so two runs
on the same list produce identical output; in this embedding determinism
is the congruence of `summarise_season`. -/
theorem summariser_deterministic (ms1 ms2 : List MatchResult) (h : ms1 = ms2) :
    summarise_season ms1 = summarise_season ms2 :=
  congrArg summarise_season h

/-- Witness for C9 at a concrete one-draw season. -/
theorem summariser_deterministic_witness :
    summarise_season [⟨"A", "B", 1, 1⟩] = summarise_season [⟨"A", "B", 1, 1⟩] :=
  summariser_deterministic [⟨"A", "B", 1, 1⟩] [⟨"A", "B", 1, 1⟩] rfl

/-- Predicate spelled from the words of the specification sentence behind
C5: the score field "splits into exactly two integer-parseable parts". -/
def exactlyTwoIntParts (ft : String) : Bool :=
  match splitDash ft.data with
  | [a, b] => (parseIntChars a).isSome && (parseIntChars b).isSome
  | _ => false

theorem parseScore_eq_none_iff (ft : String) :
    parseScore ft = none ↔
      ¬ ∃ p0 p1 rest, splitDash ft.data = p0 :: p1 :: rest ∧
        (parseIntChars p0).isSome ∧ (parseIntChars p1).isSome := by
  unfold parseScore
  rcases h : splitDash ft.data with _ | ⟨p0, _ | ⟨p1, rest⟩⟩
  · simp [h]
  · simp [h]
  · rcases h0 : parseIntChars p0 with _ | a <;> rcases h1 : parseIntChars p1 with _ | b <;>
      simp [h, h0, h1]

/-- Counterexample to C5 as stated: the score string `"1-2-3"` does not
split into exactly two integer-parseable parts, yet the parser does not
fail — it returns home 1, away 2 — so "fails if and only if the score
does not split into exactly two integer-parseable parts" is false. -/
theorem parse_fails_iff_counterexample :
    exactlyTwoIntParts "1-2-3" = false ∧ parseScore "1-2-3" = some (1, 2) := by
  constructor
  · rfl
  · rfl

/-- C5 (amended): the parser fails with `MalformedScoreError` (modelled
as `none`) exactly when the dash-split of the score field does not begin
with two integer-parseable parts — fewer than two parts, or the first or
second part not an integer; parts beyond the first two are ignored.  In
particular the score `"abc"` fails and no season summary is produced for
a file containing it. -/
theorem parse_fails_iff_first_two_unparseable :
    (∀ ft : String, parseScore ft = none ↔
      ¬ ∃ p0 p1 rest, splitDash ft.data = p0 :: p1 :: rest ∧
        (parseIntChars p0).isSome ∧ (parseIntChars p1).isSome) ∧
    parseScore "abc" = none ∧
    run_season [⟨"A", "B", "abc"⟩] = none :=
  ⟨fun ft => parseScore_eq_none_iff ft, rfl, rfl⟩

/-- C10: when the score field has more than one dash but its first two
dash-separated parts parse as integers, the parser does not fail: it
takes home goals from the first part and away goals from the second,
silently discarding the remainder, and the record parses to a match with
exactly those goal counts. -/
theorem parse_extra_parts_succeeds (ft : String) (p0 p1 : List Char)
    (rest : List (List Char)) (hsplit : splitDash ft.data = p0 :: p1 :: rest)
    (_hrest : rest ≠ []) (hg ag : Int) (h0 : parseIntChars p0 = some hg)
    (h1 : parseIntChars p1 = some ag) :
    parseScore ft = some (hg, ag) ∧
    ∀ t1 t2 : String, parse_match_results [⟨t1, t2, ft⟩] = some [⟨t1, t2, hg, ag⟩] := by
  have hps : parseScore ft = some (hg, ag) := by
    unfold parseScore
    simp [hsplit, h0, h1]
  refine ⟨hps, fun t1 t2 => ?_⟩
  simp [parse_match_results, hps]

/-- Witness for C10 at the score `"1-2-3"`: three parts, first two
integers, parsed as home 1 away 2 with the `"3"` discarded. -/
theorem parse_extra_parts_succeeds_witness :
    parseScore "1-2-3" = some (1, 2) ∧
    ∀ t1 t2 : String, parse_match_results [⟨t1, t2, "1-2-3"⟩] =
      some [⟨t1, t2, 1, 2⟩] :=
  parse_extra_parts_succeeds "1-2-3" ['1'] ['2'] [['3']] (by decide) (by decide)
    1 2 (by decide) (by decide)

theorem pairRows_filter_nil (prev : List RankedRow) (rest : List RankedRow) (t : String)
    (h : t ∉ rest.map (fun r => r.row.team)) :
    (pairRows prev rest).filter (fun tr => tr.team == t) = [] := by
  induction rest with
  | nil => rfl
  | cons c cs ih =>
    have hct : c.row.team ≠ t := by
      intro he
      exact h (List.mem_map.mpr ⟨c, by simp, he⟩)
    have hb : (c.row.team == t) = false := by simpa using hct
    have hrest : t ∉ cs.map (fun r => r.row.team) := by
      intro hm
      exact h (by simp only [List.map_cons, List.mem_cons]; exact Or.inr hm)
    simp only [pairRows, List.map_cons, List.filter_cons, hb]
    simp only [pairRows] at ih
    simpa using ih hrest

/-- C8: fewer than two season summaries supplied to the dataset builder
is the fatal `InsufficientSeasonsError`: no training rows are produced.
The check is modelled from the spec (§7), since the tail of
`prepare_training_data` is beyond the end of the source snapshot. -/
theorem dataset_builder_insufficient_seasons (seasons : List (List RankedRow))
    (h : seasons.length < 2) :
    prepare_training_data seasons = Except.error "InsufficientSeasonsError" := by
  simp [prepare_training_data, h]

/-- Witness for C8: a single season (none to pair it with) is rejected. -/
theorem dataset_builder_insufficient_seasons_witness :
    prepare_training_data [[]] = Except.error "InsufficientSeasonsError" :=
  dataset_builder_insufficient_seasons [[]] (by decide)

/-- C4: for a consecutive pair of season summaries, every team of the
later season gets exactly one training row — carrying the team's earlier
season feature vector verbatim when the team is found there by name, and
the elementwise mean of the earlier season's three lowest-positioned
teams' feature vectors when it is absent — labelled with the team's
position in the later season; and the dataset builder on that pair emits
exactly these rows.  The pair-loop body is modelled from the spec (§4.3),
the source snapshot ending inside it. -/
theorem dataset_builder_rows (prev curr : List RankedRow)
    (hnd : (curr.map (fun r => r.row.team)).Nodup)
    (r : RankedRow) (hr : r ∈ curr) :
    (pairRows prev curr).filter (fun tr => tr.team == r.row.team) =
      [{ team := r.row.team,
         features := (match lookupTeam prev r.row.team with
           | some p => featuresOfRanked p
           | none => meanFeatures ((bottomThree prev).map featuresOfRanked)),
         label := r.position }] ∧
    prepare_training_data [prev, curr] = Except.ok (pairRows prev curr) := by
  constructor
  · induction curr with
    | nil => cases hr
    | cons c cs ih =>
      simp only [List.map_cons, List.nodup_cons] at hnd
      obtain ⟨hc, hnd2⟩ := hnd
      rcases List.mem_cons.mp hr with he | he
      · rw [he]
        have hb : (c.row.team == c.row.team) = true := by simp
        simp only [pairRows, List.map_cons, List.filter_cons, hb, if_pos]
        have htail := pairRows_filter_nil prev cs c.row.team hc
        simp only [pairRows] at htail
        simp [htail, defaultFeatureProfile]
        intro a ha heq
        exact hc (List.mem_map.mpr ⟨a, ha, heq⟩)
      · have hct : c.row.team ≠ r.row.team := by
          intro heq
          apply hc
          rw [heq]
          exact List.mem_map.mpr ⟨r, he, rfl⟩
        have hb : (c.row.team == r.row.team) = false := by simpa using hct
        have htail := ih hnd2 he
        simp only [pairRows, List.map_cons, List.filter_cons, hb]
        simp only [pairRows] at htail
        simpa using htail
  · simp [prepare_training_data, consecPairs]

/-- Witness for C4: earlier season with teams X, Y, Z on positions 1–3,
later season with returning team X and newly promoted team N; team N's
single training row is checked against the imputation rule. -/
theorem dataset_builder_rows_witness :
    (pairRows
        [⟨⟨"X", 9, 3, 0, 0, 5, 1, 4⟩, 1⟩, ⟨⟨"Y", 4, 1, 1, 1, 3, 3, 0⟩, 2⟩,
          ⟨⟨"Z", 1, 0, 1, 2, 1, 5, -4⟩, 3⟩]
        [⟨⟨"X", 6, 2, 0, 1, 4, 2, 2⟩, 1⟩, ⟨⟨"N", 3, 1, 0, 2, 2, 4, -2⟩, 2⟩]).filter
        (fun tr => tr.team == (RankedRow.mk ⟨"N", 3, 1, 0, 2, 2, 4, -2⟩ 2).row.team) =
      [{ team := (RankedRow.mk ⟨"N", 3, 1, 0, 2, 2, 4, -2⟩ 2).row.team,
         features := (match lookupTeam
             [⟨⟨"X", 9, 3, 0, 0, 5, 1, 4⟩, 1⟩, ⟨⟨"Y", 4, 1, 1, 1, 3, 3, 0⟩, 2⟩,
               ⟨⟨"Z", 1, 0, 1, 2, 1, 5, -4⟩, 3⟩]
             (RankedRow.mk ⟨"N", 3, 1, 0, 2, 2, 4, -2⟩ 2).row.team with
           | some p => featuresOfRanked p
           | none => meanFeatures ((bottomThree
               [⟨⟨"X", 9, 3, 0, 0, 5, 1, 4⟩, 1⟩, ⟨⟨"Y", 4, 1, 1, 1, 3, 3, 0⟩, 2⟩,
                 ⟨⟨"Z", 1, 0, 1, 2, 1, 5, -4⟩, 3⟩]).map featuresOfRanked)),
         label := (RankedRow.mk ⟨"N", 3, 1, 0, 2, 2, 4, -2⟩ 2).position }] ∧
    prepare_training_data
        [[⟨⟨"X", 9, 3, 0, 0, 5, 1, 4⟩, 1⟩, ⟨⟨"Y", 4, 1, 1, 1, 3, 3, 0⟩, 2⟩,
            ⟨⟨"Z", 1, 0, 1, 2, 1, 5, -4⟩, 3⟩],
          [⟨⟨"X", 6, 2, 0, 1, 4, 2, 2⟩, 1⟩, ⟨⟨"N", 3, 1, 0, 2, 2, 4, -2⟩, 2⟩]] =
      Except.ok (pairRows
        [⟨⟨"X", 9, 3, 0, 0, 5, 1, 4⟩, 1⟩, ⟨⟨"Y", 4, 1, 1, 1, 3, 3, 0⟩, 2⟩,
          ⟨⟨"Z", 1, 0, 1, 2, 1, 5, -4⟩, 3⟩]
        [⟨⟨"X", 6, 2, 0, 1, 4, 2, 2⟩, 1⟩, ⟨⟨"N", 3, 1, 0, 2, 2, 4, -2⟩, 2⟩]) :=
  dataset_builder_rows
    [⟨⟨"X", 9, 3, 0, 0, 5, 1, 4⟩, 1⟩, ⟨⟨"Y", 4, 1, 1, 1, 3, 3, 0⟩, 2⟩,
      ⟨⟨"Z", 1, 0, 1, 2, 1, 5, -4⟩, 3⟩]
    [⟨⟨"X", 6, 2, 0, 1, 4, 2, 2⟩, 1⟩, ⟨⟨"N", 3, 1, 0, 2, 2, 4, -2⟩, 2⟩]
    (by decide) (RankedRow.mk ⟨"N", 3, 1, 0, 2, 2, 4, -2⟩ 2) (by decide)
